import Mathlib

set_option maxRecDepth 10000

/-!
Verification of the daddy-dig chat worker (`src/index.ts`).

The development shallowly embeds the request-validation, rate-limiting,
context-normalization and prompt-composition pipeline of the worker.
JavaScript strings are modelled as Lean `String`; JavaScript `.trim()`,
`.slice(0, n)`, `.split(",")` and `.includes(...)` are modelled charwise;
JSON values are modelled by the inductive `JsValue`; `Date.parse` validity
is an explicit parameter `ivd : String → Bool` of every definition that
needs it; the global in-memory rate-limit map is threaded as explicit
state `RateState`; the external inference provider call is represented by
the `ChatOutcome.callProvider` outcome recording the exact arguments the
worker passes to `env.AI.run`.
-/

namespace DaddyDig

/-- Model of a parsed JavaScript/JSON value (plus `undefined`). -/
inductive JsValue where
  | str (s : String)
  | num (n : Int)
  | boolean (b : Bool)
  | null
  | undefined
  | obj (fields : List (String × JsValue))
  | arr (elems : List JsValue)

/-- First-match association-list lookup, modelling JS property access on
a plain parsed-JSON object (keys are unique after `JSON.parse`). -/
def lookupField : List (String × JsValue) → String → Option JsValue
  | [], _ => none
  | (k, v) :: rest, name => if k = name then some v else lookupField rest name

/-- JS property read `value[name]`: `none` models `undefined`.
Named properties of arrays and primitives used by the worker are absent. -/
def getField : JsValue → String → Option JsValue
  | .obj fields, name => lookupField fields name
  | _, _ => none

/-- JS property read returning the `undefined` value itself when absent. -/
def getFieldU (v : JsValue) (name : String) : JsValue :=
  (getField v name).getD .undefined

/-- Model of `typeof value === "object" && value !== null`
(arrays are objects in JS; `null` is excluded by the explicit check). -/
def isObjLike : JsValue → Bool
  | .obj _ => true
  | .arr _ => true
  | _ => false

/-- Model of JS `String.prototype.trim` (charwise). -/
def strTrim (s : String) : String :=
  ⟨((s.data.dropWhile Char.isWhitespace).reverse.dropWhile Char.isWhitespace).reverse⟩

/-- Model of JS `String.prototype.slice(0, n)` (charwise). -/
def strTake (n : Nat) (s : String) : String :=
  ⟨s.data.take n⟩

/-- Model of JS `String.prototype.includes(pat)` (charwise). -/
def strContains (s pat : String) : Bool :=
  (List.range (s.data.length + 1)).any (fun i => pat.data.isPrefixOf (s.data.drop i))

/-- Helper for `strSplitComma`: accumulate the current segment (reversed). -/
def splitCommaAux : List Char → List Char → List String
  | [], acc => [⟨acc.reverse⟩]
  | c :: cs, acc =>
    if c = ',' then ⟨acc.reverse⟩ :: splitCommaAux cs []
    else splitCommaAux cs (c :: acc)

/-- Model of JS `String.prototype.split(",")` (always a non-empty list;
`"".split(",")` is `[""]`). -/
def strSplitComma (s : String) : List String := splitCommaAux s.data []

/-- Model of JS `a || b` for an optional string `a`
(both `undefined`/`null` and the empty string are falsy). -/
def jsOrStr (a : Option String) (b : String) : String :=
  match a with
  | some s => if s = "" then b else s
  | none => b

/-- JS truthiness of a `string | undefined` value. -/
def jsTruthyOpt : Option String → Bool
  | some s => s != ""
  | none => false

/-- `DEFAULT_MODEL_ID` from `src/index.ts`. -/
def DEFAULT_MODEL_ID : String := "@cf/meta/llama-3.3-70b-instruct-fp8-fast"

/-- `DEFAULT_SYSTEM_PROMPT` from `src/index.ts`. -/
def DEFAULT_SYSTEM_PROMPT : String :=
  "You are a helpful, friendly assistant named daddy. If asked who you are or what your name is, respond exactly: \"hi I’m your daddy. I’m here to help you as your daddy. How can daddy help you\". If asked again, respond exactly: \"I’m here to be a daddy and to help you.\" Provide concise and accurate responses. For time-sensitive questions, clearly state what date or time context you are using and be transparent if you do not have live web access."

/-- `DEFAULT_MAX_MESSAGE_LENGTH` from `src/index.ts`. -/
def DEFAULT_MAX_MESSAGE_LENGTH : Int := 10000

/-- `DEFAULT_MAX_MESSAGES` from `src/index.ts`. -/
def DEFAULT_MAX_MESSAGES : Int := 100

/-- `DEFAULT_MAX_TOKENS` from `src/index.ts`. -/
def DEFAULT_MAX_TOKENS : Int := 1024

/-- `DEFAULT_MAX_BODY_BYTES` from `src/index.ts`. -/
def DEFAULT_MAX_BODY_BYTES : Int := 1000000

/-- `DEFAULT_RATE_LIMIT_REQUESTS` from `src/index.ts`. -/
def DEFAULT_RATE_LIMIT_REQUESTS : Int := 20

/-- `DEFAULT_RATE_LIMIT_WINDOW_MS` from `src/index.ts`. -/
def DEFAULT_RATE_LIMIT_WINDOW_MS : Int := 60000

/-- `MAX_CONTEXT_FIELD_LENGTH` from `src/index.ts`. -/
def MAX_CONTEXT_FIELD_LENGTH : Nat := 300

/-- `sanitizeContextValue` from `src/index.ts`:
non-strings become `undefined`; strings are trimmed; an empty trim result
becomes `undefined`; otherwise the trimmed string is sliced to
`MAX_CONTEXT_FIELD_LENGTH`. -/
def sanitizeContextValue (value : JsValue) : Option String :=
  match value with
  | .str s =>
    let trimmed := strTrim s
    if trimmed = "" then none
    else some (strTake MAX_CONTEXT_FIELD_LENGTH trimmed)
  | _ => none

/-- The `ClientContext` shape from `src/types.ts`: four optional strings. -/
structure ClientContext where
  currentTimeIso : Option String
  timeZone : Option String
  locale : Option String
  userAgent : Option String
deriving DecidableEq, Repr

/-- `normalizeClientContext` from `src/index.ts`. `ivd s` models
`!Number.isNaN(Date.parse(s))`, i.e. whether `s` parses as a date. -/
def normalizeClientContext (ivd : String → Bool) (value : JsValue) : Option ClientContext :=
  if isObjLike value then
    let currentTimeIso := sanitizeContextValue (getFieldU value "currentTimeIso")
    let parsedTime : Option String :=
      match currentTimeIso with
      | some s => if s != "" && !ivd s then none else some s
      | none => none
    let timeZone := sanitizeContextValue (getFieldU value "timeZone")
    let locale := sanitizeContextValue (getFieldU value "locale")
    let userAgent := sanitizeContextValue (getFieldU value "userAgent")
    if !jsTruthyOpt parsedTime && !jsTruthyOpt timeZone
        && !jsTruthyOpt locale && !jsTruthyOpt userAgent then
      none
    else
      some ⟨parsedTime, timeZone, locale, userAgent⟩
  else
    none

/-- `buildContextualSystemPrompt` from `src/index.ts`. -/
def buildContextualSystemPrompt (basePrompt : String)
    (clientContext : Option ClientContext) : String :=
  match clientContext with
  | none => basePrompt
  | some c =>
    let contextLines : List String :=
      (if jsTruthyOpt c.currentTimeIso then
        ["Current date/time (from user device): " ++ c.currentTimeIso.getD ""] else [])
      ++ (if jsTruthyOpt c.timeZone then
        ["User time zone: " ++ c.timeZone.getD ""] else [])
      ++ (if jsTruthyOpt c.locale then
        ["User locale: " ++ c.locale.getD ""] else [])
      ++ (if jsTruthyOpt c.userAgent then
        ["User agent: " ++ c.userAgent.getD ""] else [])
    if contextLines = [] then basePrompt
    else basePrompt ++ "\n\nContext:\n- " ++ String.intercalate "\n- " contextLines

/-- Insertion-order deduplication with a `seen` accumulator, modelling
iteration of a JS `Set` built from a list (first occurrence wins). -/
def jsSetDedupAux (seen : List String) : List String → List String
  | [] => []
  | x :: xs =>
    if seen.contains x then jsSetDedupAux seen xs
    else x :: jsSetDedupAux (x :: seen) xs

/-- Model of `Array.from(new Set(models))` in `parseModelAllowlist`. -/
def jsSetDedup (l : List String) : List String := jsSetDedupAux [] l

/-- `parseModelAllowlist` from `src/index.ts`. -/
def parseModelAllowlist (allowlistValue : Option String) (defaultModel : String) :
    List String :=
  let models := ((strSplitComma (allowlistValue.getD "")).map strTrim).filter (fun m => m != "")
  if models.length = 0 then [defaultModel]
  else
    let models := if models.contains defaultModel then models else defaultModel :: models
    jsSetDedup models

/-- Longest leading run of decimal digits. -/
def leadingDigits : List Char → List Char
  | [] => []
  | c :: cs => if c.isDigit then c :: leadingDigits cs else []

/-- Numeric value of a digit list (most significant first). -/
def digitsVal (l : List Char) : Nat :=
  l.foldl (fun a c => 10 * a + (c.toNat - 48)) 0

/-- Digit-run step of `jsParseIntCore`. -/
def digitsOrNone (d : List Char) (sign : Int) : Option Int :=
  if d = [] then none else some (sign * (digitsVal d : Int))

/-- Sign and digit-run reading of `Number.parseInt` after whitespace
skipping. -/
def jsParseIntCore : List Char → Option Int
  | [] => none
  | c :: rest =>
    if c = '-' then digitsOrNone (leadingDigits rest) (-1)
    else if c = '+' then digitsOrNone (leadingDigits rest) 1
    else digitsOrNone (leadingDigits (c :: rest)) 1

/-- Model of JS `Number.parseInt(s, 10)`: skip leading whitespace, read an
optional sign, then the longest digit run; `none` models `NaN`. -/
def jsParseInt (s : String) : Option Int :=
  jsParseIntCore (s.data.dropWhile Char.isWhitespace)

/-- `parsePositiveInt` from `src/index.ts` (`Number.isFinite` fails exactly
on the `NaN` outcome of `parseInt`, modelled by `none`). -/
def parsePositiveInt (value : Option String) (fallback : Int) : Int :=
  match jsParseInt (value.getD "") with
  | none => fallback
  | some parsed => if parsed ≤ 0 then fallback else parsed

/-- One entry of the in-memory `rateLimitMap`. -/
structure RateRecord where
  count : Int
  resetTime : Int
deriving DecidableEq, Repr

/-- The `rateLimitMap` global, threaded as explicit state. -/
def RateState : Type := String → Option RateRecord

/-- `rateLimitMap.set identifier record`. -/
def setRate (st : RateState) (identifier : String) (record : RateRecord) : RateState :=
  fun j => if j = identifier then some record else st j

/-- `checkRateLimit` from `src/index.ts`, with `Date.now()` and the global
map passed explicitly; returns the boolean result and the updated map. -/
def checkRateLimit (st : RateState) (now : Int) (identifier : String)
    (maxRequests windowMs : Int) : Bool × RateState :=
  match st identifier with
  | none => (false, setRate st identifier ⟨1, now + windowMs⟩)
  | some record =>
    if now > record.resetTime then
      (false, setRate st identifier ⟨1, now + windowMs⟩)
    else if record.count ≥ maxRequests then
      (true, st)
    else
      (false, setRate st identifier ⟨record.count + 1, record.resetTime⟩)

/-- A sequence of `checkRateLimit` calls for one identifier at the given
times, collecting the boolean results and threading the map. -/
def runCalls (st : RateState) (identifier : String) (maxRequests windowMs : Int) :
    List Int → List Bool × RateState
  | [] => ([], st)
  | t :: ts =>
    let r := checkRateLimit st t identifier maxRequests windowMs
    let rest := runCalls r.2 identifier maxRequests windowMs ts
    (r.1 :: rest.1, rest.2)

/-- The `ChatMessage` shape from `src/types.ts`. -/
structure ChatMessage where
  role : String
  content : String
deriving DecidableEq, Repr

/-- `VALID_ROLES` membership from `src/index.ts`. -/
def validRole (r : String) : Bool :=
  r == "system" || r == "user" || r == "assistant"

/-- `isChatMessage` from `src/index.ts`. -/
def isChatMessage (value : JsValue) : Bool :=
  isObjLike value &&
    (match getField value "role", getField value "content" with
     | some (.str r), some (.str _) => validRole r
     | _, _ => false)

/-- The `role`/`content` projection used to build `normalizedMessages`
(reads of `m.role` / `m.content` on a value validated by `isChatMessage`). -/
def toChatMessage (value : JsValue) : ChatMessage :=
  ⟨(match getField value "role" with | some (.str r) => r | _ => ""),
   (match getField value "content" with | some (.str c) => c | _ => "")⟩

/-- The system-prompt injection step of `handleChatRequest`: unshift a
`system` message iff no message of the list has role `system`. -/
def finalMessages (contextualSystemPrompt : String)
    (normalizedMessages : List ChatMessage) : List ChatMessage :=
  if normalizedMessages.any (fun msg => msg.role == "system") then normalizedMessages
  else ⟨"system", contextualSystemPrompt⟩ :: normalizedMessages

/-- The configuration bindings of `Env` from `src/types.ts`
(all optional strings). -/
structure EnvConfig where
  MODEL_ID : Option String
  MODEL_ALLOWLIST : Option String
  SYSTEM_PROMPT : Option String
  MAX_MESSAGE_LENGTH : Option String
  MAX_MESSAGES : Option String
  MAX_TOKENS : Option String
  MAX_BODY_BYTES : Option String
  RATE_LIMIT_REQUESTS : Option String
  RATE_LIMIT_WINDOW_MS : Option String

/-- The per-request resolved configuration of `handleChatRequest`. -/
structure ResolvedConfig where
  MODEL_ID : String
  MODEL_ALLOWLIST : List String
  SYSTEM_PROMPT : String
  MAX_MESSAGE_LENGTH : Int
  MAX_MESSAGES : Int
  MAX_TOKENS : Int
  MAX_BODY_BYTES : Int
  RATE_LIMIT_REQUESTS : Int
  RATE_LIMIT_WINDOW_MS : Int

/-- The configuration block at the top of `handleChatRequest`. -/
def resolveConfig (env : EnvConfig) : ResolvedConfig :=
  let modelId := jsOrStr env.MODEL_ID DEFAULT_MODEL_ID
  { MODEL_ID := modelId
    MODEL_ALLOWLIST := parseModelAllowlist env.MODEL_ALLOWLIST modelId
    SYSTEM_PROMPT := jsOrStr env.SYSTEM_PROMPT DEFAULT_SYSTEM_PROMPT
    MAX_MESSAGE_LENGTH := parsePositiveInt env.MAX_MESSAGE_LENGTH DEFAULT_MAX_MESSAGE_LENGTH
    MAX_MESSAGES := parsePositiveInt env.MAX_MESSAGES DEFAULT_MAX_MESSAGES
    MAX_TOKENS := parsePositiveInt env.MAX_TOKENS DEFAULT_MAX_TOKENS
    MAX_BODY_BYTES := parsePositiveInt env.MAX_BODY_BYTES DEFAULT_MAX_BODY_BYTES
    RATE_LIMIT_REQUESTS := parsePositiveInt env.RATE_LIMIT_REQUESTS DEFAULT_RATE_LIMIT_REQUESTS
    RATE_LIMIT_WINDOW_MS := parsePositiveInt env.RATE_LIMIT_WINDOW_MS DEFAULT_RATE_LIMIT_WINDOW_MS }

/-- The parts of the incoming HTTP request `handleChatRequest` consults.
`bodyJson = some v` models a body whose text parses as JSON value `v`;
`bodyJson = none` models a JSON parse failure; `bodyByteLength` is the
actual byte length of the body. -/
structure ChatHttpRequest where
  contentType : Option String
  contentLength : Option String
  xForwardedFor : Option String
  cfConnectingIp : Option String
  bodyByteLength : Nat
  bodyJson : Option JsValue

/-- Terminal outcome of `handleChatRequest`: either one of the error
responses, or the call to `env.AI.run` with its exact arguments. -/
inductive ChatOutcome where
  | rateLimited
  | unsupportedMediaType
  | payloadTooLarge (maxBytes : Int)
  | invalidJson
  | invalidMessages
  | tooManyMessages (maxMessages : Int)
  | messageTooLong (maxLength : Int)
  | invalidModel
  | callProvider (model : String) (messages : List ChatMessage) (maxTokens : Int)
deriving DecidableEq, Repr

/-- HTTP status of each outcome, per the `Response` constructors. -/
def statusOf : ChatOutcome → Nat
  | .rateLimited => 429
  | .unsupportedMediaType => 415
  | .payloadTooLarge _ => 413
  | .invalidJson => 400
  | .invalidMessages => 400
  | .tooManyMessages _ => 400
  | .messageTooLong _ => 400
  | .invalidModel => 400
  | .callProvider _ _ _ => 200

/-- The `error` field of each error response body, per the JSON literals. -/
def errorMessageOf : ChatOutcome → Option String
  | .rateLimited => some "Rate limit exceeded. Please try again later."
  | .unsupportedMediaType => some "Content-Type must be application/json"
  | .payloadTooLarge n =>
    some ("Request body too large: maximum " ++ toString n ++ " bytes allowed")
  | .invalidJson => some "Invalid JSON body"
  | .invalidMessages => some "Invalid request: messages must be an array of chat messages"
  | .tooManyMessages n =>
    some ("Too many messages: maximum " ++ toString n ++ " messages allowed")
  | .messageTooLong n =>
    some ("Message too long: maximum " ++ toString n ++ " characters allowed")
  | .invalidModel =>
    some "Invalid model selection. Please choose a model from the allowed list."
  | .callProvider _ _ _ => none

/-- The client-identifier derivation of `handleChatRequest`:
`CF-Connecting-IP || forwardedFor.split(",")[0]?.trim() || "unknown"`. -/
def clientIpOf (req : ChatHttpRequest) : String :=
  let forwardedFor := req.xForwardedFor.getD ""
  let forwardedIp := strTrim ((strSplitComma forwardedFor).headD "")
  jsOrStr req.cfConnectingIp (jsOrStr (some forwardedIp) "unknown")

/-- The content-type check: `(header || "").includes("application/json")`. -/
def contentTypeOk (req : ChatHttpRequest) : Bool :=
  strContains (req.contentType.getD "") "application/json"

/-- The declared-length pre-check:
`contentLength && Number.parseInt(contentLength, 10) > MAX_BODY_BYTES`
(`NaN > x` is false). -/
def contentLengthExceeds (cfg : ResolvedConfig) (req : ChatHttpRequest) : Bool :=
  match req.contentLength with
  | none => false
  | some s =>
    if s = "" then false
    else
      match jsParseInt s with
      | some n => n > cfg.MAX_BODY_BYTES
      | none => false

/-- Model of `body ?? {}` (nullish coalescing to an empty object). -/
def jsCoalesceObj (v : JsValue) : JsValue :=
  match v with
  | .null => .obj []
  | .undefined => .obj []
  | other => other

/-- The validation and provider-call tail of `handleChatRequest`
(everything after a successful JSON parse). -/
def validateAndRun (cfg : ResolvedConfig) (ivd : String → Bool) (body : JsValue) :
    ChatOutcome :=
  let b := jsCoalesceObj body
  match getField b "messages" with
  | some (.arr elems) =>
    if !(elems.all isChatMessage) then .invalidMessages
    else if (elems.length : Int) > cfg.MAX_MESSAGES then .tooManyMessages cfg.MAX_MESSAGES
    else if elems.any
        (fun m => ((toChatMessage m).content.length : Int) > cfg.MAX_MESSAGE_LENGTH) then
      .messageTooLong cfg.MAX_MESSAGE_LENGTH
    else
      let requestedModel : Option String :=
        match getField b "model" with
        | some (.str s) => some (strTrim s)
        | _ => none
      if jsTruthyOpt requestedModel
          && !(cfg.MODEL_ALLOWLIST.contains (requestedModel.getD "")) then
        .invalidModel
      else
        let modelToUse :=
          if jsTruthyOpt requestedModel then requestedModel.getD "" else cfg.MODEL_ID
        let normalizedClientContext := normalizeClientContext ivd (getFieldU b "clientContext")
        let contextualSystemPrompt :=
          buildContextualSystemPrompt cfg.SYSTEM_PROMPT normalizedClientContext
        let normalizedMessages := elems.map toChatMessage
        .callProvider modelToUse (finalMessages contextualSystemPrompt normalizedMessages)
          cfg.MAX_TOKENS
  | _ => .invalidMessages

/-- The post-rate-limit part of `handleChatRequest`: content-type check,
declared-length check, body-size check, JSON parse, then `validateAndRun`. -/
def routeChat (cfg : ResolvedConfig) (ivd : String → Bool) (req : ChatHttpRequest) :
    ChatOutcome :=
  if !contentTypeOk req then .unsupportedMediaType
  else if contentLengthExceeds cfg req then .payloadTooLarge cfg.MAX_BODY_BYTES
  else if (req.bodyByteLength : Int) > cfg.MAX_BODY_BYTES then
    .payloadTooLarge cfg.MAX_BODY_BYTES
  else
    match req.bodyJson with
    | none => .invalidJson
    | some body => validateAndRun cfg ivd body

/-- `handleChatRequest` from `src/index.ts`: resolve configuration, derive
the client identifier, check the rate limit, then run the validation and
provider-call pipeline. Returns the outcome and the updated rate map. -/
def handleChatRequest (ivd : String → Bool) (env : EnvConfig) (st : RateState)
    (now : Int) (req : ChatHttpRequest) : ChatOutcome × RateState :=
  let cfg := resolveConfig env
  let clientIp := clientIpOf req
  let r := checkRateLimit st now clientIp cfg.RATE_LIMIT_REQUESTS cfg.RATE_LIMIT_WINDOW_MS
  if r.1 then (.rateLimited, r.2)
  else (routeChat cfg ivd req, r.2)


/-- One JSON entry per present field: used to feed a `ClientContext`
produced by `normalizeClientContext` back into it. -/
def optEntry (name : String) : Option String → List (String × JsValue)
  | some s => [(name, .str s)]
  | none => []

/-- A normalization result viewed again as a JS value (absent context is
`undefined`; a present context is the returned object literal). -/
def embedClientContext : Option ClientContext → JsValue
  | none => .undefined
  | some c =>
    .obj (optEntry "currentTimeIso" c.currentTimeIso ++ optEntry "timeZone" c.timeZone
      ++ optEntry "locale" c.locale ++ optEntry "userAgent" c.userAgent)

/-- Spec-side description of one context field's sanitization: non-string
values are dropped, strings are trimmed, empty-after-trim strings are
dropped, survivors are truncated to at most 300 units. -/
def expectedContextField (v : JsValue) (name : String) : Option String :=
  match getFieldU v name with
  | .str s => if strTrim s = "" then none else some (strTake 300 (strTrim s))
  | _ => none

/-- A selector applied under the optional normalization result. -/
def ctxField (r : Option ClientContext) (sel : ClientContext → Option String) :
    Option String :=
  match r with
  | none => none
  | some c => sel c

/-- Spec-side bullet list for `buildContextualSystemPrompt`: one bullet
per present (non-empty) field, in the fixed order current time, time
zone, locale, user agent, each with its fixed label. -/
def specContextLines (c : ClientContext) : List String :=
  (match c.currentTimeIso with
   | some s => if s = "" then [] else ["Current date/time (from user device): " ++ s]
   | none => [])
  ++ (match c.timeZone with
   | some s => if s = "" then [] else ["User time zone: " ++ s]
   | none => [])
  ++ (match c.locale with
   | some s => if s = "" then [] else ["User locale: " ++ s]
   | none => [])
  ++ (match c.userAgent with
   | some s => if s = "" then [] else ["User agent: " ++ s]
   | none => [])

/-- Spec-side entry list of the allowlist parser: split on commas, trim
each entry, drop empty entries. -/
def allowlistEntries (allowlistValue : Option String) : List String :=
  ((strSplitComma (allowlistValue.getD "")).map strTrim).filter (fun m => m != "")

/-- The 301-unit string whose truncation exposes trailing whitespace. -/
def badTimeZone : String := "a" ++ ⟨List.replicate 299 ' '⟩ ++ "b"

/-- A client context carrying `badTimeZone`. -/
def badCtx : JsValue := .obj [("timeZone", .str badTimeZone)]

theorem string_eq_of_data (s t : String) (h : s.data = t.data) : s = t := by
  cases s; cases t; exact congrArg String.mk (by simpa using h)

theorem string_eq_empty_iff (s : String) : s = "" ↔ s.data = [] := by
  cases s with
  | mk d =>
    rw [show ("" : String) = ⟨[]⟩ from rfl]
    constructor
    · intro h
      injection h
    · intro h
      exact congrArg String.mk h

theorem contains_eq_decide_mem (l : List String) (a : String) :
    l.contains a = decide (a ∈ l) := by
  simp [List.contains, List.elem_eq_mem]

theorem mem_jsSetDedupAux (a : String) (l seen : List String) :
    a ∈ jsSetDedupAux seen l ↔ a ∈ l ∧ a ∉ seen := by
  induction l generalizing seen with
  | nil => simp [jsSetDedupAux]
  | cons x xs ih =>
    simp only [jsSetDedupAux, contains_eq_decide_mem, decide_eq_true_eq, List.mem_cons]
    split_ifs with hx
    · rw [ih]
      constructor
      · rintro ⟨h1, h2⟩; exact ⟨Or.inr h1, h2⟩
      · rintro ⟨rfl | h1, h2⟩
        · exact absurd hx h2
        · exact ⟨h1, h2⟩
    · simp only [List.mem_cons, ih]
      constructor
      · rintro (rfl | ⟨h1, h2⟩)
        · exact ⟨Or.inl rfl, hx⟩
        · refine ⟨Or.inr h1, fun hs => h2 (Or.inr hs)⟩
      · rintro ⟨rfl | h1, h2⟩
        · exact Or.inl rfl
        · by_cases hax : a = x
          · exact Or.inl hax
          · exact Or.inr ⟨h1, by simp [hax, h2]⟩

theorem mem_jsSetDedup (a : String) (l : List String) : a ∈ jsSetDedup l ↔ a ∈ l := by
  simp [jsSetDedup, mem_jsSetDedupAux]

theorem nodup_jsSetDedupAux (l seen : List String) : (jsSetDedupAux seen l).Nodup := by
  induction l generalizing seen with
  | nil => simp [jsSetDedupAux]
  | cons x xs ih =>
    simp only [jsSetDedupAux]
    split
    · exact ih seen
    · refine List.Nodup.cons ?_ (ih (x :: seen))
      intro hmem
      rcases (mem_jsSetDedupAux x xs (x :: seen)).1 hmem with ⟨_, h2⟩
      exact h2 (List.mem_cons_self x seen)

theorem sublist_jsSetDedupAux (l seen : List String) : (jsSetDedupAux seen l).Sublist l := by
  induction l generalizing seen with
  | nil => simp [jsSetDedupAux]
  | cons x xs ih =>
    simp only [jsSetDedupAux]
    split
    · exact (ih seen).cons x
    · exact (ih (x :: seen)).cons₂ x

theorem jsSetDedupAux_congr (l seen₁ seen₂ : List String)
    (h : ∀ y ∈ l, (y ∈ seen₁ ↔ y ∈ seen₂)) :
    jsSetDedupAux seen₁ l = jsSetDedupAux seen₂ l := by
  induction l generalizing seen₁ seen₂ with
  | nil => rfl
  | cons x xs ih =>
    have hx := h x (List.mem_cons_self x xs)
    have hcont : seen₁.contains x = seen₂.contains x := by
      simp only [contains_eq_decide_mem]
      exact decide_eq_decide.mpr hx
    simp only [jsSetDedupAux, hcont]
    split
    · exact ih _ _ (fun y hy => h y (List.mem_cons_of_mem _ hy))
    · congr 1
      refine ih _ _ (fun y hy => ?_)
      have := h y (List.mem_cons_of_mem _ hy)
      simp only [List.mem_cons, this]

theorem jsSetDedup_cons_of_not_mem (a : String) (l : List String) (h : a ∉ l) :
    jsSetDedup (a :: l) = a :: jsSetDedup l := by
  have hc : ([] : List String).contains a = false := rfl
  simp only [jsSetDedup, jsSetDedupAux, hc, Bool.false_eq_true, if_false]
  congr 1
  refine jsSetDedupAux_congr l _ _ (fun y hy => ?_)
  have hya : y ≠ a := fun he => h (he ▸ hy)
  simp [List.mem_cons, hya]

theorem parseModelAllowlist_eq (a : Option String) (d : String) :
    parseModelAllowlist a d =
      (if (allowlistEntries a).length = 0 then [d]
       else jsSetDedup
         (if (allowlistEntries a).contains d then allowlistEntries a
          else d :: allowlistEntries a)) := rfl

/-- Claim C8: for every raw allowlist string (possibly absent) and default
model `d`, `parseModelAllowlist` splits on commas, trims entries, drops
empty entries (`allowlistEntries`), deduplicates keeping first
occurrences (`jsSetDedup`), and always returns a list containing `d`:
`d` is prepended when missing from the entries and left in place when
already present; an absent, empty or all-blank input yields `[d]`. -/
theorem parseModelAllowlist_C8 (a : Option String) (d : String) :
    d ∈ parseModelAllowlist a d
    ∧ (parseModelAllowlist a d).Nodup
    ∧ parseModelAllowlist none d = [d]
    ∧ (allowlistEntries a = [] → parseModelAllowlist a d = [d])
    ∧ (d ∈ allowlistEntries a →
        parseModelAllowlist a d = jsSetDedup (allowlistEntries a))
    ∧ (d ∉ allowlistEntries a → allowlistEntries a ≠ [] →
        parseModelAllowlist a d = d :: jsSetDedup (allowlistEntries a))
    ∧ (parseModelAllowlist a d).Sublist
        (if d ∈ allowlistEntries a then allowlistEntries a
         else d :: allowlistEntries a) := by
  have hcont : (allowlistEntries a).contains d = decide (d ∈ allowlistEntries a) :=
    contains_eq_decide_mem _ _
  by_cases hE : allowlistEntries a = []
  · have hlen : (allowlistEntries a).length = 0 := by simp [hE]
    have heq : parseModelAllowlist a d = [d] := by
      rw [parseModelAllowlist_eq, if_pos hlen]
    have hdE : d ∉ allowlistEntries a := by simp [hE]
    refine ⟨by simp [heq], by simp [heq], rfl, fun _ => heq, ?_, ?_, ?_⟩
    · intro hd; exact absurd hd hdE
    · intro _ hne; exact absurd hE hne
    · rw [heq, if_neg hdE, hE]
  · have hlen : ¬ (allowlistEntries a).length = 0 := by
      simpa [List.length_eq_zero] using hE
    by_cases hd : d ∈ allowlistEntries a
    · have heq : parseModelAllowlist a d = jsSetDedup (allowlistEntries a) := by
        rw [parseModelAllowlist_eq, if_neg hlen, hcont, decide_eq_true hd]
        simp
      refine ⟨?_, ?_, rfl, fun h => absurd h hE, fun _ => heq, fun hnd _ => absurd hd hnd, ?_⟩
      · rw [heq, mem_jsSetDedup]; exact hd
      · rw [heq]; exact nodup_jsSetDedupAux _ _
      · rw [heq, if_pos hd]; exact sublist_jsSetDedupAux _ _
    · have heq : parseModelAllowlist a d = jsSetDedup (d :: allowlistEntries a) := by
        rw [parseModelAllowlist_eq, if_neg hlen, hcont, decide_eq_false hd]
        simp
      have hcons : jsSetDedup (d :: allowlistEntries a)
          = d :: jsSetDedup (allowlistEntries a) :=
        jsSetDedup_cons_of_not_mem d _ hd
      refine ⟨?_, ?_, rfl, fun h => absurd h hE, fun h => absurd h hd,
        fun _ _ => heq.trans hcons, ?_⟩
      · rw [heq, mem_jsSetDedup]; exact List.mem_cons_self d _
      · rw [heq]; exact nodup_jsSetDedupAux _ _
      · rw [heq, if_neg hd]; exact sublist_jsSetDedupAux _ _

/-- Witness for C8 at a concrete input: the default model is prepended and
duplicates collapse to the first occurrence. -/
theorem parseModelAllowlist_C8_witness :
    parseModelAllowlist (some " m1 ,m2,m1, ") "m0" = "m0" :: jsSetDedup ["m1", "m2", "m1"] :=
  (parseModelAllowlist_C8 (some " m1 ,m2,m1, ") "m0").2.2.2.2.2.1 (by decide) (by decide)

theorem isDigit_not_whitespace (c : Char) (h : c.isDigit = true) :
    c.isWhitespace = false := by
  by_contra hwne
  rw [Bool.not_eq_false] at hwne
  have hcases : c = ' ' ∨ c = '\t' ∨ c = '\x0d' ∨ c = '\n' := by
    unfold Char.isWhitespace at hwne
    simp only [Bool.or_eq_true, decide_eq_true_eq] at hwne
    tauto
  rcases hcases with rfl | rfl | rfl | rfl <;> exact absurd h (by decide)

theorem leadingDigits_all (xs : List Char) (h : ∀ c ∈ xs, c.isDigit = true) :
    leadingDigits xs = xs := by
  induction xs with
  | nil => rfl
  | cons c cs ih =>
    simp only [leadingDigits, h c (List.mem_cons_self c cs), if_true]
    rw [ih (fun x hx => h x (List.mem_cons_of_mem _ hx))]

theorem leadingDigits_append_dot (xs ys : List Char) (h : ∀ c ∈ xs, c.isDigit = true) :
    leadingDigits (xs ++ '.' :: ys) = xs := by
  induction xs with
  | nil => simp [leadingDigits]
  | cons c cs ih =>
    simp only [List.cons_append, leadingDigits, h c (List.mem_cons_self c cs), if_true]
    exact congrArg (c :: ·) (ih (fun x hx => h x (List.mem_cons_of_mem _ hx)))

theorem jsParseInt_truncates (s t : String) (hne : s.data ≠ [])
    (hdig : ∀ c ∈ s.data, c.isDigit = true) :
    jsParseInt (s ++ "." ++ t) = jsParseInt s := by
  obtain ⟨c, rest, hs⟩ : ∃ c rest, s.data = c :: rest := by
    cases hcs : s.data with
    | nil => exact absurd hcs hne
    | cons c rest => exact ⟨c, rest, rfl⟩
  have hdata : (s ++ "." ++ t).data = s.data ++ '.' :: t.data := by
    rw [String.data_append, String.data_append]
    simp [List.append_assoc]
  have hc : c.isDigit = true := hdig c (by rw [hs]; exact List.mem_cons_self c rest)
  have hcw : c.isWhitespace = false := isDigit_not_whitespace c hc
  have hcm : c ≠ '-' := fun he => by rw [he] at hc; exact absurd hc (by decide)
  have hcp : c ≠ '+' := fun he => by rw [he] at hc; exact absurd hc (by decide)
  have hall : ∀ x ∈ c :: rest, x.isDigit = true := by rw [← hs]; exact hdig
  have hdw : ∀ l : List Char, (c :: l).dropWhile Char.isWhitespace = c :: l := by
    intro l
    rw [List.dropWhile_cons, hcw]
    simp
  unfold jsParseInt
  rw [hdata, hs, List.cons_append, hdw, hdw]
  simp only [jsParseIntCore, if_neg hcm, if_neg hcp]
  have hld : leadingDigits (c :: (rest ++ '.' :: t.data)) = c :: rest := by
    have hthis := leadingDigits_append_dot (c :: rest) t.data hall
    rwa [List.cons_append] at hthis
  rw [hld, leadingDigits_all _ hall]

/-- Claim C9: the positive-integer parser returns the fallback `F` on
absent, empty, non-numeric (`jsParseInt` yields `none`, the model of
`NaN`), zero or negative input, returns the parsed integer when it is
positive, truncates (does not round) fractional numeric strings, and
always returns a positive value when `F` is positive. -/
theorem parsePositiveInt_C9 (v : Option String) (F : Int) :
    parsePositiveInt none F = F
    ∧ parsePositiveInt (some "") F = F
    ∧ (∀ s : String, jsParseInt s = none → parsePositiveInt (some s) F = F)
    ∧ (∀ (s : String) (n : Int), jsParseInt s = some n → n ≤ 0 →
        parsePositiveInt (some s) F = F)
    ∧ (∀ (s : String) (n : Int), jsParseInt s = some n → 0 < n →
        parsePositiveInt (some s) F = n)
    ∧ (∀ s t : String, s.data ≠ [] → (∀ c ∈ s.data, c.isDigit = true) →
        jsParseInt (s ++ "." ++ t) = jsParseInt s)
    ∧ (0 < F → 0 < parsePositiveInt v F) := by
  refine ⟨rfl, rfl, ?_, ?_, ?_, jsParseInt_truncates, ?_⟩
  · intro s h
    simp [parsePositiveInt, h]
  · intro s n h hn
    simp [parsePositiveInt, h, if_pos hn]
  · intro s n h hn
    simp only [parsePositiveInt, Option.getD_some, h]
    rw [if_neg (by omega)]
  · intro hF
    unfold parsePositiveInt
    cases jsParseInt (v.getD "") with
    | none => exact hF
    | some p =>
      simp only []
      by_cases hp : p ≤ 0
      · rw [if_pos hp]; exact hF
      · rw [if_neg hp]; omega

/-- Witness for C9 at concrete inputs: non-numeric, negative, positive and
fractional strings behave as claimed, and the result stays positive. -/
theorem parsePositiveInt_C9_witness :
    parsePositiveInt (some "abc") 7 = 7
    ∧ parsePositiveInt (some "-2") 7 = 7
    ∧ parsePositiveInt (some "42") 7 = 42
    ∧ jsParseInt ("3" ++ "." ++ "9") = jsParseInt "3"
    ∧ 0 < parsePositiveInt (some "5.5") 7 :=
  ⟨(parsePositiveInt_C9 (some "abc") 7).2.2.1 "abc" (by decide),
   (parsePositiveInt_C9 (some "-2") 7).2.2.2.1 "-2" (-2) (by decide) (by decide),
   (parsePositiveInt_C9 (some "42") 7).2.2.2.2.1 "42" 42 (by decide) (by decide),
   (parsePositiveInt_C9 none 7).2.2.2.2.2.1 "3" "9" (by decide) (by decide),
   (parsePositiveInt_C9 (some "5.5") 7).2.2.2.2.2.2 (by decide)⟩

theorem contextLine_part_eq (x : Option String) (label : String) :
    (if jsTruthyOpt x then [label ++ x.getD ""] else [])
      = (match x with
         | some s => if s = "" then [] else [label ++ s]
         | none => []) := by
  cases x with
  | none => rfl
  | some s =>
    by_cases h : s = ""
    · simp [jsTruthyOpt, h]
    · simp [jsTruthyOpt, h]

/-- Claim C7: composing a base prompt with an absent context returns the
base prompt unchanged; composing with a context whose only present field
is `timeZone` with (non-empty, per the `ClientContext` invariant) value
`V` appends exactly a blank line, the literal `Context:` header and one
bullet labelled `User time zone: ` followed by `V`; in general, bullets
for absent fields are omitted and present fields appear in the fixed
order current time, time zone, locale, user agent (`specContextLines`). -/
theorem buildContextualSystemPrompt_C7 :
    (∀ P : String, buildContextualSystemPrompt P none = P)
    ∧ (∀ P V : String, V ≠ "" →
        buildContextualSystemPrompt P (some ⟨none, some V, none, none⟩)
          = P ++ "\n\nContext:\n- User time zone: " ++ V)
    ∧ (∀ (P : String) (c : ClientContext),
        buildContextualSystemPrompt P (some c)
          = if specContextLines c = [] then P
            else P ++ "\n\nContext:\n- "
              ++ String.intercalate "\n- " (specContextLines c)) := by
  refine ⟨fun P => rfl, ?_, ?_⟩
  · intro P V hV
    have hbv : (V != "") = true := by simp [bne_iff_ne, hV]
    simp only [buildContextualSystemPrompt, jsTruthyOpt, hbv, Bool.false_eq_true,
      if_false, if_true, List.append_nil, List.nil_append, Option.getD_some]
    have hne : ¬ (["User time zone: " ++ V] = ([] : List String)) := by simp
    have hint : String.intercalate "\n- " ["User time zone: " ++ V]
        = "User time zone: " ++ V := rfl
    rw [if_neg hne, hint]
    rw [← String.append_assoc, String.append_assoc P "\n\nContext:\n- " "User time zone: "]
    rfl
  · intro P c
    simp only [buildContextualSystemPrompt]
    rw [contextLine_part_eq, contextLine_part_eq, contextLine_part_eq, contextLine_part_eq]
    rfl

/-- Witness for C7 at a concrete input: a time-zone-only context yields
exactly one bullet with the fixed label. -/
theorem buildContextualSystemPrompt_C7_witness :
    buildContextualSystemPrompt "Base" (some ⟨none, some "UTC", none, none⟩)
      = "Base" ++ "\n\nContext:\n- User time zone: " ++ "UTC" :=
  buildContextualSystemPrompt_C7.2.1 "Base" "UTC" (by decide)

theorem runCalls_steady (identifier : String) (maxR win : Int) :
    ∀ (ts : List Int) (st : RateState) (c r : Int),
    st identifier = some ⟨c, r⟩ →
    (∀ t ∈ ts, t ≤ r) →
    c + ts.length ≤ maxR →
    (runCalls st identifier maxR win ts).1 = List.replicate ts.length false
    ∧ (runCalls st identifier maxR win ts).2 identifier = some ⟨c + ts.length, r⟩
    ∧ (∀ j, j ≠ identifier → (runCalls st identifier maxR win ts).2 j = st j) := by
  intro ts
  induction ts with
  | nil =>
    intro st c r hst _ _
    refine ⟨rfl, ?_, fun j _ => rfl⟩
    simpa using hst
  | cons t ts ih =>
    intro st c r hst hts hcount
    have ht : t ≤ r := hts t (List.mem_cons_self t ts)
    have hnotgt : ¬ t > r := by omega
    have hlen1 : (((t :: ts).length : Nat) : Int) = (ts.length : Int) + 1 := by
      simp only [List.length_cons]
      push_cast
      ring
    have hl0 : (0 : Int) ≤ (ts.length : Int) := by positivity
    have hclt : ¬ c ≥ maxR := by omega
    have hstep : checkRateLimit st t identifier maxR win
        = (false, setRate st identifier ⟨c + 1, r⟩) := by
      simp only [checkRateLimit, hst, if_neg hnotgt, if_neg hclt]
    have hst' : setRate st identifier ⟨c + 1, r⟩ identifier = some ⟨c + 1, r⟩ := by
      simp [setRate]
    have hih := ih (setRate st identifier ⟨c + 1, r⟩) (c + 1) r hst'
      (fun x hx => hts x (List.mem_cons_of_mem _ hx)) (by omega)
    simp only [runCalls, hstep]
    refine ⟨?_, ?_, ?_⟩
    · simp only [List.length_cons, List.replicate_succ]
      exact congrArg (false :: ·) hih.1
    · rw [hih.2.1]
      have heq2 : c + 1 + (ts.length : Int) = c + (((t :: ts).length : Nat) : Int) := by
        omega
      rw [heq2]
    · intro j hj
      rw [hih.2.2 j hj]
      simp [setRate, hj]

/-- Claim C1: starting from a state with no record for `identifier` and
`maxRequests ≥ 1`, the first `maxRequests` calls within one window report
not-limited and the next call within the window reports limited; once the
current time passes the record's reset time the next call reports
not-limited again and the record is replaced by count `1` and reset time
`now + windowMs`; and a call for one identifier never changes any other
identifier's record, while its own outcome depends only on the caller's
own record. -/
theorem checkRateLimit_C1 (st : RateState) (identifier : String)
    (maxR win t1 tN : Int) (rest : List Int)
    (hmax : 1 ≤ maxR)
    (hid : st identifier = none)
    (hlen : (rest.length : Int) = maxR - 1)
    (hrest : ∀ t ∈ rest, t ≤ t1 + win)
    (htN : tN ≤ t1 + win) :
    (runCalls st identifier maxR win (t1 :: rest)).1
      = List.replicate (rest.length + 1) false
    ∧ (checkRateLimit ((runCalls st identifier maxR win (t1 :: rest)).2)
        tN identifier maxR win).1 = true
    ∧ (∀ (st2 : RateState) (now c r : Int), st2 identifier = some ⟨c, r⟩ → now > r →
        (checkRateLimit st2 now identifier maxR win).1 = false
        ∧ (checkRateLimit st2 now identifier maxR win).2 identifier
            = some ⟨1, now + win⟩)
    ∧ (∀ (st2 : RateState) (now : Int) (j : String), j ≠ identifier →
        (checkRateLimit st2 now identifier maxR win).2 j = st2 j)
    ∧ (∀ (st2 st3 : RateState) (now : Int), st2 identifier = st3 identifier →
        (checkRateLimit st2 now identifier maxR win).1
          = (checkRateLimit st3 now identifier maxR win).1) := by
  have hfirst : checkRateLimit st t1 identifier maxR win
      = (false, setRate st identifier ⟨1, t1 + win⟩) := by
    simp only [checkRateLimit, hid]
  have hst1 : setRate st identifier ⟨1, t1 + win⟩ identifier = some ⟨1, t1 + win⟩ := by
    simp [setRate]
  have hsteady := runCalls_steady identifier maxR win rest
    (setRate st identifier ⟨1, t1 + win⟩) 1 (t1 + win) hst1 hrest (by omega)
  refine ⟨?_, ?_, ?_, ?_, ?_⟩
  · simp only [runCalls, hfirst]
    rw [List.replicate_succ]
    exact congrArg (false :: ·) hsteady.1
  · have hfinal : (runCalls st identifier maxR win (t1 :: rest)).2 identifier
        = some ⟨1 + rest.length, t1 + win⟩ := by
      simp only [runCalls, hfirst]
      exact hsteady.2.1
    have hcge : (1 : Int) + rest.length ≥ maxR := by omega
    simp only [checkRateLimit, hfinal, if_neg (show ¬ tN > t1 + win by omega),
      if_pos hcge]
  · intro st2 now c r hst2 hnow
    have hred : checkRateLimit st2 now identifier maxR win
        = (false, setRate st2 identifier ⟨1, now + win⟩) := by
      simp only [checkRateLimit, hst2, if_pos hnow]
    rw [hred]
    exact ⟨rfl, by simp [setRate]⟩
  · intro st2 now j hj
    simp only [checkRateLimit]
    cases hrec : st2 identifier with
    | none => simp [setRate, hj]
    | some record =>
      by_cases h1 : now > record.resetTime
      · simp [if_pos h1, setRate, hj]
      · by_cases h2 : record.count ≥ maxR
        · simp [if_neg h1, if_pos h2]
        · simp [if_neg h1, if_neg h2, setRate, hj]
  · intro st2 st3 now heq
    simp only [checkRateLimit, heq]
    cases st3 identifier with
    | none => rfl
    | some record =>
      by_cases h1 : now > record.resetTime
      · simp [h1]
      · by_cases h2 : record.count ≥ maxR
        · simp [h1, h2]
        · simp [h1, h2]

/-- Witness for C1 at a concrete input: with `maxRequests = 2` the calls at
times 0 and 3 pass, the call at time 50 is limited, the other identifier's
record is untouched, and after the window a call passes again. -/
theorem checkRateLimit_C1_witness :
    (runCalls (fun _ => none) "a" 2 100 [0, 3]).1 = List.replicate 2 false
    ∧ (checkRateLimit ((runCalls (fun _ => none) "a" 2 100 [0, 3]).2) 50 "a" 2 100).1
        = true := by
  have h := checkRateLimit_C1 (fun _ => none) "a" 2 100 0 50 [3]
    (by decide) rfl (by decide) (by decide) (by decide)
  exact ⟨h.1, h.2.1⟩

theorem sanitize_eq_expected (v : JsValue) (name : String) :
    sanitizeContextValue (getFieldU v name) = expectedContextField v name := by
  cases hv : getFieldU v name <;>
    simp [sanitizeContextValue, expectedContextField, hv, MAX_CONTEXT_FIELD_LENGTH]

theorem sanitize_ne_empty (u : JsValue) (s : String)
    (h : sanitizeContextValue u = some s) : s ≠ "" := by
  cases u with
  | str s' =>
    simp only [sanitizeContextValue] at h
    by_cases ht : strTrim s' = ""
    · rw [if_pos ht] at h; exact absurd h (by simp)
    · rw [if_neg ht] at h
      injection h with h
      subst h
      rw [Ne, string_eq_empty_iff]
      intro hdata
      rcases List.take_eq_nil_iff.mp hdata with h300 | hnil
      · exact absurd h300 (by decide)
      · exact ht ((string_eq_empty_iff _).mpr hnil)
  | num n => exact absurd h (by simp [sanitizeContextValue])
  | boolean b => exact absurd h (by simp [sanitizeContextValue])
  | null => exact absurd h (by simp [sanitizeContextValue])
  | undefined => exact absurd h (by simp [sanitizeContextValue])
  | obj fields => exact absurd h (by simp [sanitizeContextValue])
  | arr elems => exact absurd h (by simp [sanitizeContextValue])

theorem sanitize_length_le (u : JsValue) (s : String)
    (h : sanitizeContextValue u = some s) : s.length ≤ 300 := by
  cases u with
  | str s' =>
    simp only [sanitizeContextValue] at h
    by_cases ht : strTrim s' = ""
    · rw [if_pos ht] at h; exact absurd h (by simp)
    · rw [if_neg ht] at h
      injection h with h
      subst h
      show (strTake MAX_CONTEXT_FIELD_LENGTH (strTrim s')).data.length ≤ 300
      simp only [strTake, List.length_take, MAX_CONTEXT_FIELD_LENGTH]
      omega
  | num n => exact absurd h (by simp [sanitizeContextValue])
  | boolean b => exact absurd h (by simp [sanitizeContextValue])
  | null => exact absurd h (by simp [sanitizeContextValue])
  | undefined => exact absurd h (by simp [sanitizeContextValue])
  | obj fields => exact absurd h (by simp [sanitizeContextValue])
  | arr elems => exact absurd h (by simp [sanitizeContextValue])

theorem expected_ne_empty (v : JsValue) (name : String) (s : String)
    (h : expectedContextField v name = some s) : s ≠ "" := by
  rw [← sanitize_eq_expected] at h
  exact sanitize_ne_empty _ _ h

theorem expected_length_le (v : JsValue) (name : String) (s : String)
    (h : expectedContextField v name = some s) : s.length ≤ 300 :=
  sanitize_length_le (getFieldU v name) s (by rw [sanitize_eq_expected]; exact h)

/-- Spec-side description of normalization on an object input: each field
follows `expectedContextField`; `currentTimeIso` additionally requires a
valid date; if no field survives the whole result is absent. -/
def normSpec (ivd : String → Bool) (v : JsValue) : Option ClientContext :=
  let pt : Option String :=
    match expectedContextField v "currentTimeIso" with
    | some s => if ivd s then some s else none
    | none => none
  let tz := expectedContextField v "timeZone"
  let lo := expectedContextField v "locale"
  let ua := expectedContextField v "userAgent"
  if pt = none ∧ tz = none ∧ lo = none ∧ ua = none then none
  else some ⟨pt, tz, lo, ua⟩

theorem normSpec_pt_ne_empty (ivd : String → Bool) (v : JsValue) (s : String)
    (h : (match expectedContextField v "currentTimeIso" with
          | some s => if ivd s then some s else none
          | none => none) = some s) : s ≠ "" := by
  cases h1 : expectedContextField v "currentTimeIso" with
  | none => rw [h1] at h; exact absurd h (by simp)
  | some s1 =>
    rw [h1] at h
    have h' : (if ivd s1 = true then some s1 else none) = some s := h
    clear h
    rename' h' => h
    by_cases hivd : ivd s1 = true
    · rw [if_pos hivd] at h
      injection h with h
      subst h
      exact expected_ne_empty v "currentTimeIso" s1 h1
    · rw [if_neg hivd] at h
      exact absurd h (by simp)

theorem parsedTime_match_eq (ivd : String → Bool) (v : JsValue) :
    (match expectedContextField v "currentTimeIso" with
     | some s => if s != "" && !ivd s then none else some s
     | none => none)
    = (match expectedContextField v "currentTimeIso" with
       | some s => if ivd s then some s else none
       | none => none) := by
  cases h1 : expectedContextField v "currentTimeIso" with
  | none => rfl
  | some s1 =>
    have hb1 : (s1 != "") = true := by
      simp [bne_iff_ne, expected_ne_empty v "currentTimeIso" s1 h1]
    cases hivd : ivd s1 <;> simp [hb1, hivd]

theorem jsTruthyOpt_false_iff (x : Option String)
    (hx : ∀ s, x = some s → s ≠ "") : jsTruthyOpt x = false ↔ x = none := by
  cases x with
  | none => simp [jsTruthyOpt]
  | some s => simp [jsTruthyOpt, bne_iff_ne, hx s rfl]

theorem normalizeClientContext_obj (ivd : String → Bool) (v : JsValue)
    (hv : isObjLike v = true) :
    normalizeClientContext ivd v = normSpec ivd v := by
  simp only [normalizeClientContext, hv, if_true, sanitize_eq_expected, normSpec]
  rw [parsedTime_match_eq]
  have hpt : ∀ s, (match expectedContextField v "currentTimeIso" with
      | some s => if ivd s then some s else none
      | none => none) = some s → s ≠ "" := fun s h => normSpec_pt_ne_empty ivd v s h
  have htz := fun s h => expected_ne_empty v "timeZone" s h
  have hlo := fun s h => expected_ne_empty v "locale" s h
  have hua := fun s h => expected_ne_empty v "userAgent" s h
  have hBool : (!jsTruthyOpt (match expectedContextField v "currentTimeIso" with
        | some s => if ivd s then some s else none
        | none => none)
      && !jsTruthyOpt (expectedContextField v "timeZone")
      && !jsTruthyOpt (expectedContextField v "locale")
      && !jsTruthyOpt (expectedContextField v "userAgent")) = true
      ↔ ((match expectedContextField v "currentTimeIso" with
          | some s => if ivd s then some s else none
          | none => none) = none
        ∧ expectedContextField v "timeZone" = none
        ∧ expectedContextField v "locale" = none
        ∧ expectedContextField v "userAgent" = none) := by
    simp only [Bool.and_eq_true, Bool.not_eq_true']
    rw [jsTruthyOpt_false_iff _ hpt, jsTruthyOpt_false_iff _ htz,
      jsTruthyOpt_false_iff _ hlo, jsTruthyOpt_false_iff _ hua]
    tauto
  by_cases hcond : ((match expectedContextField v "currentTimeIso" with
      | some s => if ivd s then some s else none
      | none => none) = none
    ∧ expectedContextField v "timeZone" = none
    ∧ expectedContextField v "locale" = none
    ∧ expectedContextField v "userAgent" = none)
  · rw [if_pos (hBool.mpr hcond), if_pos hcond]
  · rw [if_neg (fun hb => hcond (hBool.mp hb)), if_neg hcond]

/-- Claim C5: context normalization returns absent on non-object input;
on object input each recognized field follows `expectedContextField`
(non-strings dropped, strings trimmed, empty-after-trim dropped,
survivors truncated to at most 300 units), `currentTimeIso` additionally
requires a valid date while the rest of the context is kept, and if all
four fields are dropped the overall result is absent. -/
theorem normalizeClientContext_C5 (ivd : String → Bool) :
    (∀ v : JsValue, isObjLike v = false → normalizeClientContext ivd v = none)
    ∧ (∀ v : JsValue, isObjLike v = true →
        ctxField (normalizeClientContext ivd v) (fun c => c.timeZone)
          = expectedContextField v "timeZone"
        ∧ ctxField (normalizeClientContext ivd v) (fun c => c.locale)
          = expectedContextField v "locale"
        ∧ ctxField (normalizeClientContext ivd v) (fun c => c.userAgent)
          = expectedContextField v "userAgent"
        ∧ ctxField (normalizeClientContext ivd v) (fun c => c.currentTimeIso)
          = (match expectedContextField v "currentTimeIso" with
             | some s => if ivd s then some s else none
             | none => none))
    ∧ (∀ (v : JsValue) (c : ClientContext) (s : String),
        normalizeClientContext ivd v = some c →
        (c.currentTimeIso = some s ∨ c.timeZone = some s ∨ c.locale = some s
          ∨ c.userAgent = some s) →
        s.length ≤ 300)
    ∧ (∀ v : JsValue,
        expectedContextField v "timeZone" = none →
        expectedContextField v "locale" = none →
        expectedContextField v "userAgent" = none →
        (∀ s, expectedContextField v "currentTimeIso" = some s → ivd s = false) →
        normalizeClientContext ivd v = none) := by
  refine ⟨?_, ?_, ?_, ?_⟩
  · intro v h
    simp [normalizeClientContext, h]
  · intro v hv
    rw [normalizeClientContext_obj ivd v hv]
    simp only [normSpec]
    by_cases hcond : ((match expectedContextField v "currentTimeIso" with
        | some s => if ivd s then some s else none
        | none => none) = none
      ∧ expectedContextField v "timeZone" = none
      ∧ expectedContextField v "locale" = none
      ∧ expectedContextField v "userAgent" = none)
    · rw [if_pos hcond]
      obtain ⟨hpt, htz, hlo, hua⟩ := hcond
      exact ⟨by simp [ctxField, htz], by simp [ctxField, hlo],
        by simp [ctxField, hua], by simp [ctxField, hpt]⟩
    · rw [if_neg hcond]
      exact ⟨rfl, rfl, rfl, rfl⟩
  · intro v c s hn hor
    have hv : isObjLike v = true := by
      cases hbv : isObjLike v with
      | false => rw [normalizeClientContext, hbv] at hn; exact absurd hn (by simp)
      | true => rfl
    rw [normalizeClientContext_obj ivd v hv] at hn
    simp only [normSpec] at hn
    split at hn
    · exact absurd hn (by simp)
    · injection hn with hn
      subst hn
      rcases hor with hf | hf | hf | hf
      · simp only at hf
        have hexp : expectedContextField v "currentTimeIso" = some s := by
          cases hE : expectedContextField v "currentTimeIso" with
          | none => rw [hE] at hf; exact absurd hf (by simp)
          | some s1 =>
            rw [hE] at hf
            have hf' : (if ivd s1 = true then some s1 else none) = some s := hf
            by_cases hivd : ivd s1 = true
            · rw [if_pos hivd] at hf'
              injection hf' with hf'
              rw [hf']
            · rw [if_neg hivd] at hf'
              exact absurd hf' (by simp)
        exact expected_length_le v "currentTimeIso" s hexp
      · exact expected_length_le v "timeZone" s hf
      · exact expected_length_le v "locale" s hf
      · exact expected_length_le v "userAgent" s hf
  · intro v htz hlo hua hct
    cases hbv : isObjLike v with
    | false => simp [normalizeClientContext, hbv]
    | true =>
      rw [normalizeClientContext_obj ivd v hbv]
      simp only [normSpec]
      have hpt : (match expectedContextField v "currentTimeIso" with
          | some s => if ivd s then some s else none
          | none => none) = none := by
        cases hE : expectedContextField v "currentTimeIso" with
        | none => rfl
        | some s1 => simp [hct s1 hE]
      rw [if_pos ⟨hpt, htz, hlo, hua⟩]

/-- Witness for C5 at concrete inputs: a string input is not an object, a
trimmed time-zone field survives, and an all-invalid object normalizes to
absent. -/
theorem normalizeClientContext_C5_witness :
    normalizeClientContext (fun _ => true) (.str "x") = none
    ∧ ctxField (normalizeClientContext (fun _ => true) (.obj [("timeZone", .str " UTC ")]))
        (fun c => c.timeZone)
      = expectedContextField (.obj [("timeZone", .str " UTC ")]) "timeZone"
    ∧ normalizeClientContext (fun _ => true) (.obj [("timeZone", .num 3)]) = none :=
  ⟨(normalizeClientContext_C5 (fun _ => true)).1 (.str "x") rfl,
   ((normalizeClientContext_C5 (fun _ => true)).2.1 (.obj [("timeZone", .str " UTC ")]) rfl).1,
   (normalizeClientContext_C5 (fun _ => true)).2.2.2 (.obj [("timeZone", .num 3)])
     rfl rfl rfl (fun s h => by exact absurd h (by simp [expectedContextField, getFieldU, getField, lookupField]))⟩

theorem strTake_eq_self (s : String) (n : Nat) (h : s.length ≤ n) :
    strTake n s = s := by
  apply string_eq_of_data
  simp only [strTake]
  exact List.take_of_length_le h

theorem embed_lookup (c : ClientContext) :
    getField (embedClientContext (some c)) "currentTimeIso"
        = c.currentTimeIso.map JsValue.str
    ∧ getField (embedClientContext (some c)) "timeZone" = c.timeZone.map JsValue.str
    ∧ getField (embedClientContext (some c)) "locale" = c.locale.map JsValue.str
    ∧ getField (embedClientContext (some c)) "userAgent" = c.userAgent.map JsValue.str := by
  obtain ⟨f1, f2, f3, f4⟩ := c
  cases f1 <;> cases f2 <;> cases f3 <;> cases f4 <;> exact ⟨rfl, rfl, rfl, rfl⟩

theorem normalize_some_fields (ivd : String → Bool) (v : JsValue) (c : ClientContext)
    (hn : normalizeClientContext ivd v = some c) :
    (∀ s, c.timeZone = some s → s ≠ "" ∧ s.length ≤ 300)
    ∧ (∀ s, c.locale = some s → s ≠ "" ∧ s.length ≤ 300)
    ∧ (∀ s, c.userAgent = some s → s ≠ "" ∧ s.length ≤ 300)
    ∧ (∀ s, c.currentTimeIso = some s → s ≠ "" ∧ s.length ≤ 300 ∧ ivd s = true)
    ∧ ¬(c.currentTimeIso = none ∧ c.timeZone = none ∧ c.locale = none
        ∧ c.userAgent = none) := by
  have hv : isObjLike v = true := by
    cases hbv : isObjLike v with
    | false => rw [normalizeClientContext, hbv] at hn; exact absurd hn (by simp)
    | true => rfl
  rw [normalizeClientContext_obj ivd v hv] at hn
  simp only [normSpec] at hn
  split at hn
  · exact absurd hn (by simp)
  · injection hn with hn
    subst hn
    refine ⟨?_, ?_, ?_, ?_, ?_⟩
    · intro s hf
      exact ⟨expected_ne_empty v "timeZone" s hf, expected_length_le v "timeZone" s hf⟩
    · intro s hf
      exact ⟨expected_ne_empty v "locale" s hf, expected_length_le v "locale" s hf⟩
    · intro s hf
      exact ⟨expected_ne_empty v "userAgent" s hf, expected_length_le v "userAgent" s hf⟩
    · intro s hf
      simp only at hf
      have hexp : expectedContextField v "currentTimeIso" = some s ∧ ivd s = true := by
        cases hE : expectedContextField v "currentTimeIso" with
        | none => rw [hE] at hf; exact absurd hf (by simp)
        | some s1 =>
          rw [hE] at hf
          have hf' : (if ivd s1 = true then some s1 else none) = some s := hf
          by_cases hivd : ivd s1 = true
          · rw [if_pos hivd] at hf'
            injection hf' with hf'
            subst hf'
            exact ⟨rfl, hivd⟩
          · rw [if_neg hivd] at hf'
            exact absurd hf' (by simp)
      exact ⟨expected_ne_empty v "currentTimeIso" s hexp.1,
        expected_length_le v "currentTimeIso" s hexp.1, hexp.2⟩
    · assumption

/-- Counterexample to claim C6 as stated: trimming happens before
truncation, so truncating a 301-unit trimmed value can expose trailing
whitespace; re-normalizing `badCtx`'s result then trims further and
yields a different context. -/
theorem normalize_not_idempotent_C6 :
    normalizeClientContext (fun _ => true)
      (embedClientContext (normalizeClientContext (fun _ => true) badCtx))
    ≠ normalizeClientContext (fun _ => true) badCtx := by decide

/-- Claim C6 (amended): normalization is idempotent provided every
surviving field value is trim-fixed (truncation to 300 units does not
expose new leading or trailing whitespace), and an absent result stays
absent; normalizing an object in which every recognized field is invalid
yields absent. -/
theorem normalizeClientContext_C6_amended (ivd : String → Bool) :
    (∀ (v : JsValue) (c : ClientContext),
        normalizeClientContext ivd v = some c →
        (∀ s : String, (c.currentTimeIso = some s ∨ c.timeZone = some s
          ∨ c.locale = some s ∨ c.userAgent = some s) → strTrim s = s) →
        normalizeClientContext ivd (embedClientContext (some c)) = some c)
    ∧ normalizeClientContext ivd (embedClientContext none) = none
    ∧ (∀ v : JsValue,
        expectedContextField v "timeZone" = none →
        expectedContextField v "locale" = none →
        expectedContextField v "userAgent" = none →
        (∀ s, expectedContextField v "currentTimeIso" = some s → ivd s = false) →
        normalizeClientContext ivd v = none) := by
  refine ⟨?_, rfl, ?_⟩
  · intro v c hn hfix
    obtain ⟨htzf, hlof, huaf, hctf, hcond⟩ := normalize_some_fields ivd v c hn
    obtain ⟨hl1, hl2, hl3, hl4⟩ := embed_lookup c
    have hobj : isObjLike (embedClientContext (some c)) = true := rfl
    rw [normalizeClientContext_obj ivd _ hobj]
    simp only [normSpec]
    have he_ct : expectedContextField (embedClientContext (some c)) "currentTimeIso"
        = c.currentTimeIso := by
      cases hf : c.currentTimeIso with
      | none => simp [expectedContextField, getFieldU, hl1, hf]
      | some s =>
        obtain ⟨hne, hle, _⟩ := hctf s hf
        have hts : strTrim s = s := hfix s (Or.inl hf)
        simp [expectedContextField, getFieldU, hl1, hf, hts, hne,
          strTake_eq_self s 300 hle]
    have he_tz : expectedContextField (embedClientContext (some c)) "timeZone"
        = c.timeZone := by
      cases hf : c.timeZone with
      | none => simp [expectedContextField, getFieldU, hl2, hf]
      | some s =>
        obtain ⟨hne, hle⟩ := htzf s hf
        have hts : strTrim s = s := hfix s (Or.inr (Or.inl hf))
        simp [expectedContextField, getFieldU, hl2, hf, hts, hne,
          strTake_eq_self s 300 hle]
    have he_lo : expectedContextField (embedClientContext (some c)) "locale"
        = c.locale := by
      cases hf : c.locale with
      | none => simp [expectedContextField, getFieldU, hl3, hf]
      | some s =>
        obtain ⟨hne, hle⟩ := hlof s hf
        have hts : strTrim s = s := hfix s (Or.inr (Or.inr (Or.inl hf)))
        simp [expectedContextField, getFieldU, hl3, hf, hts, hne,
          strTake_eq_self s 300 hle]
    have he_ua : expectedContextField (embedClientContext (some c)) "userAgent"
        = c.userAgent := by
      cases hf : c.userAgent with
      | none => simp [expectedContextField, getFieldU, hl4, hf]
      | some s =>
        obtain ⟨hne, hle⟩ := huaf s hf
        have hts : strTrim s = s := hfix s (Or.inr (Or.inr (Or.inr hf)))
        simp [expectedContextField, getFieldU, hl4, hf, hts, hne,
          strTake_eq_self s 300 hle]
    have hpt : (match expectedContextField (embedClientContext (some c)) "currentTimeIso" with
        | some s => if ivd s then some s else none
        | none => none) = c.currentTimeIso := by
      rw [he_ct]
      cases hf : c.currentTimeIso with
      | none => rfl
      | some s =>
        obtain ⟨_, _, hivd⟩ := hctf s hf
        simp [hivd]
    rw [hpt, he_tz, he_lo, he_ua, if_neg hcond]

  · intro v htz hlo hua hct
    cases hbv : isObjLike v with
    | false => simp [normalizeClientContext, hbv]
    | true =>
      rw [normalizeClientContext_obj ivd v hbv]
      simp only [normSpec]
      have hpt : (match expectedContextField v "currentTimeIso" with
          | some s => if ivd s then some s else none
          | none => none) = none := by
        cases hE : expectedContextField v "currentTimeIso" with
        | none => rfl
        | some s1 => simp [hct s1 hE]
      rw [if_pos ⟨hpt, htz, hlo, hua⟩]

/-- Witness for the amended C6 at a concrete input: a short, trim-fixed
time zone survives re-normalization unchanged. -/
theorem normalizeClientContext_C6_witness :
    normalizeClientContext (fun _ => true)
      (embedClientContext (some ⟨none, some "UTC", none, none⟩))
      = some ⟨none, some "UTC", none, none⟩ :=
  (normalizeClientContext_C6_amended (fun _ => true)).1
    (.obj [("timeZone", .str "UTC")]) ⟨none, some "UTC", none, none⟩ (by decide)
    (fun s h => by
      rcases h with h | h | h | h <;> first
        | (injection h with h; rw [← h]; decide)
        | exact absurd h (by simp))

theorem parsePositiveInt_pos (v : Option String) (F : Int) (hF : 0 < F) :
    0 < parsePositiveInt v F := by
  unfold parsePositiveInt
  cases jsParseInt (v.getD "") with
  | none => exact hF
  | some p =>
    simp only []
    by_cases hp : p ≤ 0
    · rw [if_pos hp]; exact hF
    · rw [if_neg hp]; omega

theorem handleChatRequest_not_limited (ivd : String → Bool) (env : EnvConfig)
    (st : RateState) (now : Int) (req : ChatHttpRequest)
    (h : (checkRateLimit st now (clientIpOf req) (resolveConfig env).RATE_LIMIT_REQUESTS
      (resolveConfig env).RATE_LIMIT_WINDOW_MS).1 = false) :
    (handleChatRequest ivd env st now req).1 = routeChat (resolveConfig env) ivd req := by
  simp only [handleChatRequest, h, Bool.false_eq_true, if_false]

theorem routeChat_valid (cfg : ResolvedConfig) (ivd : String → Bool)
    (req : ChatHttpRequest) (body : JsValue)
    (hct : contentTypeOk req = true)
    (hcl : contentLengthExceeds cfg req = false)
    (hsz : ¬ ((req.bodyByteLength : Int) > cfg.MAX_BODY_BYTES))
    (hb : req.bodyJson = some body) :
    routeChat cfg ivd req = validateAndRun cfg ivd body := by
  simp only [routeChat, hct, Bool.not_true, Bool.false_eq_true, if_false, hcl,
    if_neg hsz, hb]

theorem validateAndRun_valid (cfg : ResolvedConfig) (ivd : String → Bool)
    (body : JsValue) (elems : List JsValue)
    (hmsgs : getField (jsCoalesceObj body) "messages" = some (.arr elems))
    (hall : elems.all isChatMessage = true)
    (hcount : ¬ ((elems.length : Int) > cfg.MAX_MESSAGES))
    (hlen : elems.any (fun m =>
      ((toChatMessage m).content.length : Int) > cfg.MAX_MESSAGE_LENGTH) = false) :
    validateAndRun cfg ivd body =
      (let requestedModel : Option String :=
        match getField (jsCoalesceObj body) "model" with
        | some (.str s) => some (strTrim s)
        | _ => none
      if jsTruthyOpt requestedModel
          && !(cfg.MODEL_ALLOWLIST.contains (requestedModel.getD "")) then
        ChatOutcome.invalidModel
      else
        ChatOutcome.callProvider
          (if jsTruthyOpt requestedModel then requestedModel.getD "" else cfg.MODEL_ID)
          (finalMessages
            (buildContextualSystemPrompt cfg.SYSTEM_PROMPT
              (normalizeClientContext ivd (getFieldU (jsCoalesceObj body) "clientContext")))
            (elems.map toChatMessage))
          cfg.MAX_TOKENS) := by
  simp only [validateAndRun, hmsgs, hall, Bool.not_true, Bool.false_eq_true, if_false,
    if_neg hcount, hlen]

/-- An `Env` with no configuration variables set (all defaults apply). -/
def defaultEnv : EnvConfig := ⟨none, none, none, none, none, none, none, none, none⟩

/-- The empty rate-limit map. -/
def emptyRateState : RateState := fun _ => none

/-- The JSON body of the end-to-end scenario:
`{"messages":[{"role":"user","content":"Hello"}]}`. -/
def helloBody : JsValue :=
  .obj [("messages", .arr [.obj [("role", .str "user"), ("content", .str "Hello")]])]

/-- The end-to-end scenario request: a JSON POST carrying `helloBody`. -/
def helloRequest : ChatHttpRequest :=
  ⟨some "application/json", none, none, none, 47, some helloBody⟩

/-- Claim C2: the composed system prompt is inserted at the front of the
normalized message list iff no caller-supplied message has role `system`;
when a caller system message is present, the messages are forwarded
unchanged (so no context injection occurs); and the end-to-end scenario
`{"messages":[{"role":"user","content":"Hello"}]}` under default
configuration calls the provider with exactly the default system prompt
followed by the user message. -/
theorem systemPromptInjection_C2 :
    (∀ (prompt : String) (msgs : List ChatMessage),
        ((∀ m ∈ msgs, m.role ≠ "system") →
          finalMessages prompt msgs = ⟨"system", prompt⟩ :: msgs)
        ∧ ((∃ m ∈ msgs, m.role = "system") → finalMessages prompt msgs = msgs))
    ∧ (handleChatRequest (fun _ => true) defaultEnv emptyRateState 0 helloRequest).1
        = .callProvider DEFAULT_MODEL_ID
            [⟨"system", DEFAULT_SYSTEM_PROMPT⟩, ⟨"user", "Hello"⟩] 1024 := by
  constructor
  · intro prompt msgs
    constructor
    · intro h
      have hcond : ¬ (msgs.any (fun msg => msg.role == "system") = true) := by
        rw [List.any_eq_true]
        rintro ⟨m, hm, hbeq⟩
        exact h m hm (by simpa [beq_iff_eq] using hbeq)
      simp only [finalMessages, if_neg hcond]
    · rintro ⟨m, hm, hrole⟩
      have hcond : msgs.any (fun msg => msg.role == "system") = true := by
        rw [List.any_eq_true]
        exact ⟨m, hm, by simp [beq_iff_eq, hrole]⟩
      simp only [finalMessages, if_pos hcond]
  · decide

/-- Witness for C2 at a concrete input: a list without a system message
receives the injected system prompt in front. -/
theorem systemPromptInjection_C2_witness :
    finalMessages "p" [⟨"user", "hi"⟩] = [⟨"system", "p"⟩, ⟨"user", "hi"⟩] :=
  (systemPromptInjection_C2.1 "p" [⟨"user", "hi"⟩]).1 (by decide)

/-- Claim C3: for an otherwise-valid request, a model field whose trimmed
value is non-empty and in the resolved allowlist succeeds and exactly the
trimmed id is passed to the provider; a non-empty trimmed value outside
the allowlist yields the fixed 400 invalid-model response and the
provider is not called; an absent or blank model field selects the
default model id. -/
theorem modelSelection_C3 (ivd : String → Bool) (env : EnvConfig) (st : RateState)
    (now : Int) (req : ChatHttpRequest) (body : JsValue) (elems : List JsValue)
    (hlim : (checkRateLimit st now (clientIpOf req)
      (resolveConfig env).RATE_LIMIT_REQUESTS
      (resolveConfig env).RATE_LIMIT_WINDOW_MS).1 = false)
    (hct : contentTypeOk req = true)
    (hcl : contentLengthExceeds (resolveConfig env) req = false)
    (hsz : ¬ ((req.bodyByteLength : Int) > (resolveConfig env).MAX_BODY_BYTES))
    (hb : req.bodyJson = some body)
    (hmsgs : getField (jsCoalesceObj body) "messages" = some (.arr elems))
    (hall : elems.all isChatMessage = true)
    (hcount : ¬ ((elems.length : Int) > (resolveConfig env).MAX_MESSAGES))
    (hlen : elems.any (fun m =>
      ((toChatMessage m).content.length : Int)
        > (resolveConfig env).MAX_MESSAGE_LENGTH) = false) :
    (∀ s : String, getField (jsCoalesceObj body) "model" = some (.str s) →
        strTrim s ≠ "" → strTrim s ∈ (resolveConfig env).MODEL_ALLOWLIST →
        (handleChatRequest ivd env st now req).1
          = .callProvider (strTrim s)
              (finalMessages
                (buildContextualSystemPrompt (resolveConfig env).SYSTEM_PROMPT
                  (normalizeClientContext ivd
                    (getFieldU (jsCoalesceObj body) "clientContext")))
                (elems.map toChatMessage))
              (resolveConfig env).MAX_TOKENS)
    ∧ (∀ s : String, getField (jsCoalesceObj body) "model" = some (.str s) →
        strTrim s ≠ "" → strTrim s ∉ (resolveConfig env).MODEL_ALLOWLIST →
        (handleChatRequest ivd env st now req).1 = .invalidModel
        ∧ statusOf ChatOutcome.invalidModel = 400
        ∧ errorMessageOf ChatOutcome.invalidModel
            = some "Invalid model selection. Please choose a model from the allowed list."
        ∧ (∀ (m : String) (msgs : List ChatMessage) (tok : Int),
            (handleChatRequest ivd env st now req).1 ≠ .callProvider m msgs tok))
    ∧ (getField (jsCoalesceObj body) "model" = none →
        (handleChatRequest ivd env st now req).1
          = .callProvider (resolveConfig env).MODEL_ID
              (finalMessages
                (buildContextualSystemPrompt (resolveConfig env).SYSTEM_PROMPT
                  (normalizeClientContext ivd
                    (getFieldU (jsCoalesceObj body) "clientContext")))
                (elems.map toChatMessage))
              (resolveConfig env).MAX_TOKENS)
    ∧ (∀ s : String, getField (jsCoalesceObj body) "model" = some (.str s) →
        strTrim s = "" →
        (handleChatRequest ivd env st now req).1
          = .callProvider (resolveConfig env).MODEL_ID
              (finalMessages
                (buildContextualSystemPrompt (resolveConfig env).SYSTEM_PROMPT
                  (normalizeClientContext ivd
                    (getFieldU (jsCoalesceObj body) "clientContext")))
                (elems.map toChatMessage))
              (resolveConfig env).MAX_TOKENS) := by
  have hrun : (handleChatRequest ivd env st now req).1
      = validateAndRun (resolveConfig env) ivd body := by
    rw [handleChatRequest_not_limited ivd env st now req hlim,
      routeChat_valid (resolveConfig env) ivd req body hct hcl hsz hb]
  have hval := validateAndRun_valid (resolveConfig env) ivd body elems
    hmsgs hall hcount hlen
  refine ⟨?_, ?_, ?_, ?_⟩
  · intro s hmod hne hmem
    rw [hrun, hval]
    have hbne : (strTrim s != "") = true := by simp [bne_iff_ne, hne]
    have hcontains : (resolveConfig env).MODEL_ALLOWLIST.contains (strTrim s) = true := by
      rw [contains_eq_decide_mem]
      exact decide_eq_true hmem
    simp only [hmod, jsTruthyOpt, hbne, Option.getD_some, hcontains, Bool.not_true,
      Bool.and_false, Bool.false_eq_true, if_false, if_true]
  · intro s hmod hne hmem
    have hbne : (strTrim s != "") = true := by simp [bne_iff_ne, hne]
    have hcontains : (resolveConfig env).MODEL_ALLOWLIST.contains (strTrim s) = false := by
      rw [contains_eq_decide_mem]
      exact decide_eq_false hmem
    have houtcome : (handleChatRequest ivd env st now req).1 = .invalidModel := by
      rw [hrun, hval]
      simp only [hmod, jsTruthyOpt, hbne, Option.getD_some, hcontains, Bool.not_false,
        Bool.and_true, if_true]
    exact ⟨houtcome, rfl, rfl, fun m msgs tok => by rw [houtcome]; simp⟩
  · intro hmod
    rw [hrun, hval]
    simp only [hmod, jsTruthyOpt, Bool.false_and, Bool.false_eq_true, if_false]
  · intro s hmod hblank
    rw [hrun, hval]
    have hbne : (strTrim s != "") = false := by simp [bne_iff_ne, hblank]
    simp only [hmod, jsTruthyOpt, hbne, Bool.false_and, Bool.false_eq_true, if_false]

/-- An `Env` with a two-entry model allowlist configured. -/
def modelEnv : EnvConfig :=
  ⟨none, some "m1,m2", none, none, none, none, none, none, none⟩

/-- A body selecting the allowlisted model `m1` (with surrounding blanks). -/
def modelBodyOk : JsValue := .obj [("messages", .arr []), ("model", .str " m1 ")]

/-- A body selecting a model absent from the allowlist. -/
def modelBodyBad : JsValue := .obj [("messages", .arr []), ("model", .str "zzz")]

/-- A JSON POST carrying `modelBodyOk`. -/
def modelRequestOk : ChatHttpRequest :=
  ⟨some "application/json", none, none, none, 40, some modelBodyOk⟩

/-- A JSON POST carrying `modelBodyBad`. -/
def modelRequestBad : ChatHttpRequest :=
  ⟨some "application/json", none, none, none, 40, some modelBodyBad⟩

/-- Witness for C3 at concrete inputs: the allowlisted trimmed model id is
forwarded verbatim; the non-allowlisted one yields the invalid-model
outcome. -/
theorem modelSelection_C3_witness :
    (handleChatRequest (fun _ => true) modelEnv emptyRateState 0 modelRequestOk).1
      = .callProvider "m1" [⟨"system", DEFAULT_SYSTEM_PROMPT⟩] 1024
    ∧ (handleChatRequest (fun _ => true) modelEnv emptyRateState 0 modelRequestBad).1
      = .invalidModel := by
  constructor
  · have h := (modelSelection_C3 (fun _ => true) modelEnv emptyRateState 0 modelRequestOk
      modelBodyOk [] rfl rfl rfl (by decide) rfl rfl rfl (by decide) rfl).1 " m1 " rfl
      (by decide) (by decide)
    exact h.trans (by decide)
  · exact ((modelSelection_C3 (fun _ => true) modelEnv emptyRateState 0 modelRequestBad
      modelBodyBad [] rfl rfl rfl (by decide) rfl rfl rfl (by decide) rfl).2.1 "zzz" rfl
      (by decide) (by decide)).1

/-- Claim C4: if the Content-Length header parses to an integer exceeding
the configured body-size ceiling, the handler returns the 413
payload-too-large outcome for every possible body and body length — so
the body is never parsed and the provider is never invoked. -/
theorem contentLengthPrecheck_C4 (ivd : String → Bool) (env : EnvConfig)
    (st : RateState) (now : Int) (ct cl : String) (xff cfip : Option String) (n : Int)
    (hlim : (checkRateLimit st now (clientIpOf ⟨some ct, some cl, xff, cfip, 0, none⟩)
      (resolveConfig env).RATE_LIMIT_REQUESTS
      (resolveConfig env).RATE_LIMIT_WINDOW_MS).1 = false)
    (hct : strContains ct "application/json" = true)
    (hclne : cl ≠ "")
    (hparse : jsParseInt cl = some n)
    (hn : n > (resolveConfig env).MAX_BODY_BYTES) :
    ∀ (bodyJson : Option JsValue) (len : Nat),
      (handleChatRequest ivd env st now ⟨some ct, some cl, xff, cfip, len, bodyJson⟩).1
        = .payloadTooLarge (resolveConfig env).MAX_BODY_BYTES
      ∧ statusOf (ChatOutcome.payloadTooLarge (resolveConfig env).MAX_BODY_BYTES) = 413
      ∧ errorMessageOf (ChatOutcome.payloadTooLarge (resolveConfig env).MAX_BODY_BYTES)
          = some ("Request body too large: maximum "
              ++ toString (resolveConfig env).MAX_BODY_BYTES ++ " bytes allowed")
      ∧ (∀ (m : String) (msgs : List ChatMessage) (tok : Int),
          (handleChatRequest ivd env st now
            ⟨some ct, some cl, xff, cfip, len, bodyJson⟩).1
            ≠ .callProvider m msgs tok) := by
  intro bodyJson len
  have hip : clientIpOf (⟨some ct, some cl, xff, cfip, len, bodyJson⟩ : ChatHttpRequest)
      = clientIpOf (⟨some ct, some cl, xff, cfip, 0, none⟩ : ChatHttpRequest) := rfl
  have hlim' : (checkRateLimit st now
      (clientIpOf (⟨some ct, some cl, xff, cfip, len, bodyJson⟩ : ChatHttpRequest))
      (resolveConfig env).RATE_LIMIT_REQUESTS
      (resolveConfig env).RATE_LIMIT_WINDOW_MS).1 = false := by
    rw [hip]; exact hlim
  have hctok : contentTypeOk (⟨some ct, some cl, xff, cfip, len, bodyJson⟩
      : ChatHttpRequest) = true := hct
  have hexc : contentLengthExceeds (resolveConfig env)
      (⟨some ct, some cl, xff, cfip, len, bodyJson⟩ : ChatHttpRequest) = true := by
    simp only [contentLengthExceeds, hparse, if_neg hclne]
    exact decide_eq_true hn
  have houtcome : (handleChatRequest ivd env st now
      ⟨some ct, some cl, xff, cfip, len, bodyJson⟩).1
      = .payloadTooLarge (resolveConfig env).MAX_BODY_BYTES := by
    rw [handleChatRequest_not_limited ivd env st now _ hlim']
    simp only [routeChat, hctok, Bool.not_true, Bool.false_eq_true, if_false, hexc,
      if_true]
  exact ⟨houtcome, rfl, rfl, fun m msgs tok => by rw [houtcome]; simp⟩

/-- Witness for C4 at a concrete input: Content-Length 2000000 against the
default 1000000-byte ceiling yields 413 with the body untouched. -/
theorem contentLengthPrecheck_C4_witness :
    (handleChatRequest (fun _ => true) defaultEnv emptyRateState 0
      ⟨some "application/json", some "2000000", none, none, 5, some (.obj [])⟩).1
      = .payloadTooLarge 1000000 :=
  ((contentLengthPrecheck_C4 (fun _ => true) defaultEnv emptyRateState 0
    "application/json" "2000000" none none 2000000 rfl (by decide) (by decide)
    (by decide) (by decide)) (some (.obj [])) 5).1

/-- Claim C10: a request whose `messages` field is the empty array passes
shape, count and length validation, and the provider is invoked with
exactly one message: the injected system message carrying the composed
system prompt. -/
theorem emptyMessages_C10 (ivd : String → Bool) (env : EnvConfig) (st : RateState)
    (now : Int) (req : ChatHttpRequest) (body : JsValue)
    (hlim : (checkRateLimit st now (clientIpOf req)
      (resolveConfig env).RATE_LIMIT_REQUESTS
      (resolveConfig env).RATE_LIMIT_WINDOW_MS).1 = false)
    (hct : contentTypeOk req = true)
    (hcl : contentLengthExceeds (resolveConfig env) req = false)
    (hsz : ¬ ((req.bodyByteLength : Int) > (resolveConfig env).MAX_BODY_BYTES))
    (hb : req.bodyJson = some body)
    (hmsgs : getField (jsCoalesceObj body) "messages" = some (.arr []))
    (hmodel : getField (jsCoalesceObj body) "model" = none) :
    ([] : List JsValue).all isChatMessage = true
    ∧ ¬ ((([] : List JsValue).length : Int) > (resolveConfig env).MAX_MESSAGES)
    ∧ (handleChatRequest ivd env st now req).1
        = .callProvider (resolveConfig env).MODEL_ID
            [⟨"system", buildContextualSystemPrompt (resolveConfig env).SYSTEM_PROMPT
                (normalizeClientContext ivd (getFieldU (jsCoalesceObj body) "clientContext"))⟩]
            (resolveConfig env).MAX_TOKENS := by
  have hpos : 0 < (resolveConfig env).MAX_MESSAGES :=
    parsePositiveInt_pos env.MAX_MESSAGES DEFAULT_MAX_MESSAGES (by decide)
  have hcount : ¬ ((([] : List JsValue).length : Int) > (resolveConfig env).MAX_MESSAGES) := by
    simp only [List.length_nil, Nat.cast_zero]
    omega
  refine ⟨rfl, hcount, ?_⟩
  rw [handleChatRequest_not_limited ivd env st now req hlim,
    routeChat_valid (resolveConfig env) ivd req body hct hcl hsz hb,
    validateAndRun_valid (resolveConfig env) ivd body [] hmsgs rfl hcount rfl]
  simp only [hmodel, jsTruthyOpt, Bool.false_and, Bool.false_eq_true, if_false,
    List.map_nil]
  rfl

/-- Witness for C10 at a concrete input: `{"messages":[]}` under default
configuration invokes the provider with only the injected default system
prompt. -/
theorem emptyMessages_C10_witness :
    (handleChatRequest (fun _ => true) defaultEnv emptyRateState 0
      ⟨some "application/json", none, none, none, 16, some (.obj [("messages", .arr [])])⟩).1
      = .callProvider DEFAULT_MODEL_ID [⟨"system", DEFAULT_SYSTEM_PROMPT⟩] 1024 :=
  ((emptyMessages_C10 (fun _ => true) defaultEnv emptyRateState 0
    ⟨some "application/json", none, none, none, 16, some (.obj [("messages", .arr [])])⟩
    (.obj [("messages", .arr [])]) rfl rfl rfl (by decide) rfl rfl rfl).2.2).trans
    (by decide)

end DaddyDig
